import Mathlib

/-!
Shallow embedding of the `NetworkInterface` component from
`src/Network Interface/src/network_interface.cc`.

Hardware (Ethernet) addresses, IP addresses and opaque datagrams are
modelled as natural numbers.  Serialization/parsing of payloads — an
external collaborator assumed correct — is modelled by a sum type
`Payload`: `serialize` of a datagram is `Payload.ipv4`, `serialize` of an
ARP message is `Payload.arp`, and `parse` succeeds exactly on the matching
constructor.  The two `std::unordered_map` tables are modelled as
association lists with overwrite-on-insert; `std::queue` of datagrams and
the outbound frame queue are lists (push appends at the back, front/pop at
the head).
-/

/-- ARP message value type: opcode, sender hardware/IP, target hardware/IP. -/
structure ARPMessage where
  opcode : Nat
  sender_ethernet_address : Nat
  sender_ip_address : Nat
  target_ethernet_address : Nat
  target_ip_address : Nat
deriving DecidableEq, Repr

/-- Frame payload bytes, abstracted: either a serialized IPv4 datagram, a
serialized ARP message, or bytes that parse as neither. -/
inductive Payload where
  | ipv4 (d : Nat)
  | arp (m : ARPMessage)
  | junk (n : Nat)
deriving DecidableEq, Repr

/-- Ethernet frame header: destination, source, ethertype. -/
structure EthernetHeader where
  dst : Nat
  src : Nat
  ethertype : Nat
deriving DecidableEq, Repr

/-- Ethernet frame: header plus payload. -/
structure EthernetFrame where
  header : EthernetHeader
  payload : Payload
deriving DecidableEq, Repr

def ETHERNET_BROADCAST : Nat := 281474976710655

def TYPE_IPv4 : Nat := 2048

def TYPE_ARP : Nat := 2054

def OPCODE_REQUEST : Nat := 1

def OPCODE_REPLY : Nat := 2

/-- Association-list lookup (first entry with the given key). -/
def lookupA {α : Type} : List (Nat × α) → Nat → Option α
  | [], _ => none
  | (k1, v) :: rest, k => if k1 = k then some v else lookupA rest k

/-- Membership test, `std::unordered_map::contains`. -/
def containsA {α : Type} (m : List (Nat × α)) (k : Nat) : Bool :=
  (lookupA m k).isSome

/-- Insert-or-overwrite, the effect of `map[k] = v`. -/
def insertA {α : Type} : List (Nat × α) → Nat → α → List (Nat × α)
  | [], k, v => [(k, v)]
  | (k1, v1) :: rest, k, v =>
      if k1 = k then (k, v) :: rest else (k1, v1) :: insertA rest k v

/-- Update the value stored at a key in place (used for `map[k].second.push(x)`
and for draining a queue to empty). -/
def updateA {α : Type} : List (Nat × α) → Nat → (α → α) → List (Nat × α)
  | [], _, _ => []
  | (k1, v1) :: rest, k, f =>
      if k1 = k then (k1, f v1) :: updateA rest k f
      else (k1, v1) :: updateA rest k f

/-- The whole mutable state of one `NetworkInterface` instance.
`arp_table_` maps IP to (insertion time, hardware address);
`queue_table_` maps IP to (time of last ARP request, queued datagrams). -/
structure NetworkInterface where
  ethernet_address_ : Nat
  ip_address_ : Nat
  arp_table_ : List (Nat × (Nat × Nat))
  queue_table_ : List (Nat × (Nat × List Nat))
  frame_queue_ : List EthernetFrame
  curr_time_ : Nat
deriving DecidableEq, Repr

/-- Modelled from the spec: construction with the local identity — the header
file declaring the members is not part of the sources, so the fresh state
(empty tables, empty outbound queue, clock at zero) follows the spec's
description of a newly constructed interface. -/
def mkInterface (ethernet_address ip_address : Nat) : NetworkInterface :=
  ⟨ethernet_address, ip_address, [], [], [], 0⟩

/-- Source method `NetworkInterface::send_datagram`. -/
def send_datagram (s : NetworkInterface) (dgram : Nat) (next_hop : Nat) :
    NetworkInterface :=
  if containsA s.arp_table_ next_hop then
    -- MAC address of next hop IP is found: one IPv4 frame to the cached MAC
    let mac := ((lookupA s.arp_table_ next_hop).getD (0, 0)).2
    { s with frame_queue_ := s.frame_queue_ ++
        [⟨⟨mac, s.ethernet_address_, TYPE_IPv4⟩, Payload.ipv4 dgram⟩] }
  else if containsA s.queue_table_ next_hop then
    -- an ARP request is already outstanding: just queue the datagram
    { s with queue_table_ :=
        updateA s.queue_table_ next_hop (fun p => (p.1, p.2 ++ [dgram])) }
  else
    -- broadcast an ARP request and open a pending entry
    { s with
      queue_table_ := insertA s.queue_table_ next_hop (s.curr_time_, [dgram]),
      frame_queue_ := s.frame_queue_ ++
        [⟨⟨ETHERNET_BROADCAST, s.ethernet_address_, TYPE_ARP⟩,
          Payload.arp ⟨OPCODE_REQUEST, s.ethernet_address_, s.ip_address_, 0, next_hop⟩⟩] }

/-- The drain loop `while (!queue_table_[key].second.empty()) ...` of
`recv_frame`: `operator[]` first creates a `(0, empty)` entry when the key is
absent, then every queued datagram is emitted as an IPv4 frame to `mac` in
queue order and popped; the entry itself is left behind with an empty queue. -/
def drain_to (s : NetworkInterface) (key mac : Nat) : NetworkInterface :=
  let qt := if containsA s.queue_table_ key then s.queue_table_
            else insertA s.queue_table_ key (0, [])
  let pending := ((lookupA qt key).getD (0, [])).2
  { s with
    queue_table_ := updateA qt key (fun p => (p.1, [])),
    frame_queue_ := s.frame_queue_ ++ pending.map (fun d =>
      ⟨⟨mac, s.ethernet_address_, TYPE_IPv4⟩, Payload.ipv4 d⟩) }

/-- The ARP branch of `recv_frame`, after a successful parse of `m0`.
The source mutates `arpmsg` in place when answering a request aimed at the
local IP, so the subsequent drain loop reads the MUTATED sender fields
(local IP / local MAC) in that case; otherwise it reads the original ones. -/
def process_arp (s : NetworkInterface) (m0 : ARPMessage) : NetworkInterface :=
  let s1 := { s with
    arp_table_ := insertA s.arp_table_ m0.sender_ip_address
      (s.curr_time_, m0.sender_ethernet_address) }
  if m0.opcode = OPCODE_REQUEST ∧ m0.target_ip_address = s.ip_address_ then
    let m1 : ARPMessage :=
      ⟨OPCODE_REPLY, s.ethernet_address_, s.ip_address_,
        m0.sender_ethernet_address, m0.sender_ip_address⟩
    drain_to
      { s1 with frame_queue_ := s1.frame_queue_ ++
          [⟨⟨m1.target_ethernet_address, s.ethernet_address_, TYPE_ARP⟩, Payload.arp m1⟩] }
      m1.sender_ip_address m1.sender_ethernet_address
  else
    drain_to s1 m0.sender_ip_address m0.sender_ethernet_address

/-- Source method `NetworkInterface::recv_frame`. -/
def recv_frame (s : NetworkInterface) (frame : EthernetFrame) :
    Option Nat × NetworkInterface :=
  if frame.header.dst = s.ethernet_address_ ∨ frame.header.dst = ETHERNET_BROADCAST then
    if frame.header.ethertype = TYPE_IPv4 then
      match frame.payload with
      | Payload.ipv4 d => (some d, s)
      | _ => (none, s)
    else if frame.header.ethertype = TYPE_ARP then
      match frame.payload with
      | Payload.arp m0 => (none, process_arp s m0)
      | _ => (none, s)
    else (none, s)
  else (none, s)

/-- Source method `NetworkInterface::erase_expired_item`: collect every key whose timestamp
is strictly older than `expire_time`, then erase them — equivalently, keep an
entry iff `now - timestamp ≤ expire_time`. -/
def erase_expired_item {β : Type} (m : List (Nat × (Nat × β))) (now expire_time : Nat) :
    List (Nat × (Nat × β)) :=
  m.filter (fun p => decide (now - p.2.1 ≤ expire_time))

/-- Source method `NetworkInterface::tick`. -/
def tick (s : NetworkInterface) (ms_since_last_tick : Nat) : NetworkInterface :=
  let now := s.curr_time_ + ms_since_last_tick
  { s with
    curr_time_ := now,
    arp_table_ := erase_expired_item s.arp_table_ now 30000,
    queue_table_ := erase_expired_item s.queue_table_ now 5000 }

/-- Source method `NetworkInterface::maybe_send`: pop the oldest ready frame, if any. -/
def maybe_send (s : NetworkInterface) : Option EthernetFrame × NetworkInterface :=
  match s.frame_queue_ with
  | [] => (none, s)
  | f :: rest => (some f, { s with frame_queue_ := rest })

/-- A sequence of `tick` calls with the given elapsed times. -/
def ticks (s : NetworkInterface) (ds : List Nat) : NetworkInterface :=
  ds.foldl tick s

/-! ### Association-list lemmas -/

theorem lookupA_insertA_self {α : Type} (m : List (Nat × α)) (k : Nat) (v : α) :
    lookupA (insertA m k v) k = some v := by
  induction m with
  | nil => simp [insertA, lookupA]
  | cons p rest ih =>
      obtain ⟨k1, v1⟩ := p
      by_cases h : k1 = k
      · simp [insertA, h, lookupA]
      · simp [insertA, h, lookupA, ih]


theorem lookupA_insertA_ne {α : Type} (m : List (Nat × α)) (k k2 : Nat) (v : α)
    (h : k ≠ k2) : lookupA (insertA m k v) k2 = lookupA m k2 := by
  have h3 : ¬ k = k2 := h
  induction m with
  | nil => simp [insertA, lookupA, h3]
  | cons p rest ih =>
      obtain ⟨k1, v1⟩ := p
      by_cases h1 : k1 = k
      · subst h1
        simp [insertA, lookupA, h3]
      · by_cases h2 : k1 = k2
        · have h4 : ¬ k2 = k := fun hh => h hh.symm
          simp [insertA, lookupA, h1, h2, h4]
        · simp [insertA, lookupA, h1, h2, ih]

theorem lookupA_updateA_self {α : Type} (m : List (Nat × α)) (k : Nat) (f : α → α) :
    lookupA (updateA m k f) k = (lookupA m k).map f := by
  induction m with
  | nil => simp [updateA, lookupA]
  | cons p rest ih =>
      obtain ⟨k1, v1⟩ := p
      by_cases h : k1 = k
      · simp [updateA, lookupA, h]
      · simp [updateA, lookupA, h, ih]

theorem lookupA_updateA_ne {α : Type} (m : List (Nat × α)) (k k2 : Nat) (f : α → α)
    (h : k ≠ k2) : lookupA (updateA m k f) k2 = lookupA m k2 := by
  induction m with
  | nil => simp [updateA, lookupA]
  | cons p rest ih =>
      obtain ⟨k1, v1⟩ := p
      by_cases h1 : k1 = k
      · subst h1
        have h3 : ¬ k1 = k2 := h
        simp [updateA, lookupA, h3, ih]
      · by_cases h2 : k1 = k2
        · have h4 : ¬ k2 = k := fun hh => h hh.symm
          simp [updateA, lookupA, h1, h2, h4]
        · simp [updateA, lookupA, h1, h2, ih]

theorem lookupA_none_of_not_mem {α : Type} (m : List (Nat × α)) (k : Nat)
    (h : k ∉ m.map Prod.fst) : lookupA m k = none := by
  induction m with
  | nil => simp [lookupA]
  | cons p rest ih =>
      obtain ⟨k1, v1⟩ := p
      simp only [List.map_cons, List.mem_cons] at h
      push_neg at h
      have h1 : ¬ k1 = k := fun hh => h.1 hh.symm
      simp [lookupA, h1, ih h.2]

theorem lookupA_filter_none {α : Type} (m : List (Nat × α)) (k : Nat)
    (p : Nat × α → Bool) (h : lookupA m k = none) :
    lookupA (m.filter p) k = none := by
  induction m with
  | nil => simp [lookupA]
  | cons q rest ih =>
      obtain ⟨k1, v1⟩ := q
      by_cases h1 : k1 = k
      · simp [lookupA, h1] at h
      · simp only [lookupA, if_neg h1] at h
        by_cases h2 : p (k1, v1)
        · simp [List.filter_cons, h2, lookupA, h1, ih h]
        · simp [List.filter_cons, h2, ih h]

theorem lookupA_filter_keep {α : Type} (m : List (Nat × α)) (k : Nat) (v : α)
    (p : Nat × α → Bool) (h : lookupA m k = some v) (hp : p (k, v) = true) :
    lookupA (m.filter p) k = some v := by
  induction m with
  | nil => simp [lookupA] at h
  | cons q rest ih =>
      obtain ⟨k1, v1⟩ := q
      by_cases h1 : k1 = k
      · subst h1
        simp [lookupA] at h
        subst h
        simp [List.filter_cons, hp, lookupA]
      · simp only [lookupA, if_neg h1] at h
        by_cases h2 : p (k1, v1)
        · simp [List.filter_cons, h2, lookupA, h1, ih h]
        · simp [List.filter_cons, h2, ih h]

theorem lookupA_filter_gone {α : Type} (m : List (Nat × α)) (k : Nat) (v : α)
    (p : Nat × α → Bool) (hnd : (m.map Prod.fst).Nodup)
    (h : lookupA m k = some v) (hp : p (k, v) = false) :
    lookupA (m.filter p) k = none := by
  induction m with
  | nil => simp [lookupA] at h
  | cons q rest ih =>
      obtain ⟨k1, v1⟩ := q
      simp only [List.map_cons, List.nodup_cons] at hnd
      by_cases h1 : k1 = k
      · subst h1
        simp [lookupA] at h
        subst h
        simp only [List.filter_cons, hp, Bool.false_eq_true, if_false]
        exact lookupA_filter_none rest k1 p (lookupA_none_of_not_mem rest k1 hnd.1)
      · simp only [lookupA, if_neg h1] at h
        by_cases h2 : p (k1, v1)
        · simp [List.filter_cons, h2, lookupA, h1, ih hnd.2 h]
        · simp [List.filter_cons, h2, ih hnd.2 h]

theorem nodup_keys_filter {α : Type} (m : List (Nat × α)) (p : Nat × α → Bool)
    (h : (m.map Prod.fst).Nodup) : ((m.filter p).map Prod.fst).Nodup :=
  List.Nodup.sublist (List.Sublist.map Prod.fst (List.filter_sublist m)) h

theorem mem_insertA {α : Type} (m : List (Nat × α)) (k : Nat) (v : α)
    (q : Nat × α) (h : q ∈ insertA m k v) : q ∈ m ∨ q = (k, v) := by
  induction m with
  | nil =>
      simp [insertA] at h
      simp [h]
  | cons p1 rest ih =>
      obtain ⟨k1, v1⟩ := p1
      by_cases h1 : k1 = k
      · simp only [insertA, if_pos h1, List.mem_cons] at h
        rcases h with h | h
        · right; exact h
        · left; exact List.mem_cons_of_mem _ h
      · simp only [insertA, if_neg h1, List.mem_cons] at h
        rcases h with h | h
        · left; simp [h]
        · rcases ih h with h2 | h2
          · left; exact List.mem_cons_of_mem _ h2
          · right; exact h2

theorem mem_updateA {α : Type} (m : List (Nat × α)) (k : Nat) (f : α → α)
    (q : Nat × α) (h : q ∈ updateA m k f) :
    ∃ q1 ∈ m, q = q1 ∨ q = (q1.1, f q1.2) := by
  induction m with
  | nil => simp [updateA] at h
  | cons p1 rest ih =>
      obtain ⟨k1, v1⟩ := p1
      by_cases h1 : k1 = k
      · simp only [updateA, if_pos h1, List.mem_cons] at h
        rcases h with h | h
        · exact ⟨(k1, v1), by simp, Or.inr (by simp [h])⟩
        · obtain ⟨q1, hq1, hq⟩ := ih h
          exact ⟨q1, List.mem_cons_of_mem _ hq1, hq⟩
      · simp only [updateA, if_neg h1, List.mem_cons] at h
        rcases h with h | h
        · exact ⟨(k1, v1), by simp, Or.inl h⟩
        · obtain ⟨q1, hq1, hq⟩ := ih h
          exact ⟨q1, List.mem_cons_of_mem _ hq1, hq⟩

/-! ### Branch equations for the operations -/

theorem send_hit (s : NetworkInterface) (d X t mac : Nat)
    (h : lookupA s.arp_table_ X = some (t, mac)) :
    send_datagram s d X = { s with frame_queue_ := s.frame_queue_ ++
      [⟨⟨mac, s.ethernet_address_, TYPE_IPv4⟩, Payload.ipv4 d⟩] } := by
  simp [send_datagram, containsA, h]

theorem send_pending (s : NetworkInterface) (d X : Nat)
    (h1 : lookupA s.arp_table_ X = none)
    (h2 : containsA s.queue_table_ X = true) :
    send_datagram s d X =
      { s with
        queue_table_ := updateA s.queue_table_ X (fun p => (p.1, p.2 ++ [d])) } := by
  have h3 : ¬ lookupA s.queue_table_ X = none := by
    intro hn
    rw [containsA, hn] at h2
    simp at h2
  simp [send_datagram, containsA, h1, h3]

theorem send_miss (s : NetworkInterface) (d X : Nat)
    (h1 : lookupA s.arp_table_ X = none)
    (h2 : lookupA s.queue_table_ X = none) :
    send_datagram s d X = { s with
      queue_table_ := insertA s.queue_table_ X (s.curr_time_, [d]),
      frame_queue_ := s.frame_queue_ ++
        [⟨⟨ETHERNET_BROADCAST, s.ethernet_address_, TYPE_ARP⟩,
          Payload.arp ⟨OPCODE_REQUEST, s.ethernet_address_, s.ip_address_, 0, X⟩⟩] } := by
  simp [send_datagram, containsA, h1, h2]

theorem drain_to_some (s : NetworkInterface) (key mac t : Nat) (q : List Nat)
    (h : lookupA s.queue_table_ key = some (t, q)) :
    drain_to s key mac = { s with
      queue_table_ := updateA s.queue_table_ key (fun p => (p.1, [])),
      frame_queue_ := s.frame_queue_ ++ q.map (fun d =>
        ⟨⟨mac, s.ethernet_address_, TYPE_IPv4⟩, Payload.ipv4 d⟩) } := by
  simp [drain_to, containsA, h]

theorem drain_to_none (s : NetworkInterface) (key mac : Nat)
    (h : lookupA s.queue_table_ key = none) :
    drain_to s key mac = { s with
      queue_table_ := updateA (insertA s.queue_table_ key (0, [])) key
        (fun p => (p.1, [])) } := by
  simp [drain_to, containsA, h, lookupA_insertA_self]

theorem process_arp_self (s : NetworkInterface) (m0 : ARPMessage)
    (hop : m0.opcode = OPCODE_REQUEST) (ht : m0.target_ip_address = s.ip_address_) :
    process_arp s m0 =
      drain_to
        { s with
          arp_table_ := insertA s.arp_table_ m0.sender_ip_address
            (s.curr_time_, m0.sender_ethernet_address),
          frame_queue_ := s.frame_queue_ ++
            [⟨⟨m0.sender_ethernet_address, s.ethernet_address_, TYPE_ARP⟩,
              Payload.arp ⟨OPCODE_REPLY, s.ethernet_address_, s.ip_address_,
                m0.sender_ethernet_address, m0.sender_ip_address⟩⟩] }
        s.ip_address_ s.ethernet_address_ := by
  simp [process_arp, hop, ht]

theorem process_arp_other (s : NetworkInterface) (m0 : ARPMessage)
    (h : ¬(m0.opcode = OPCODE_REQUEST ∧ m0.target_ip_address = s.ip_address_)) :
    process_arp s m0 =
      drain_to
        { s with
          arp_table_ := insertA s.arp_table_ m0.sender_ip_address
            (s.curr_time_, m0.sender_ethernet_address) }
        m0.sender_ip_address m0.sender_ethernet_address := by
  simp only [process_arp, if_neg h]

theorem recv_frame_not_ours (s : NetworkInterface) (f : EthernetFrame)
    (h : ¬(f.header.dst = s.ethernet_address_ ∨ f.header.dst = ETHERNET_BROADCAST)) :
    recv_frame s f = (none, s) := by
  simp only [recv_frame, if_neg h]

theorem recv_frame_ipv4 (s : NetworkInterface) (f : EthernetFrame) (d : Nat)
    (hdst : f.header.dst = s.ethernet_address_ ∨ f.header.dst = ETHERNET_BROADCAST)
    (htype : f.header.ethertype = TYPE_IPv4)
    (hp : f.payload = Payload.ipv4 d) :
    recv_frame s f = (some d, s) := by
  simp [recv_frame, hdst, htype, hp]

theorem recv_frame_ipv4_junk (s : NetworkInterface) (f : EthernetFrame)
    (hdst : f.header.dst = s.ethernet_address_ ∨ f.header.dst = ETHERNET_BROADCAST)
    (htype : f.header.ethertype = TYPE_IPv4)
    (hp : ∀ d, f.payload ≠ Payload.ipv4 d) :
    recv_frame s f = (none, s) := by
  simp only [recv_frame, if_pos hdst, if_pos htype]

theorem recv_frame_arp (s : NetworkInterface) (f : EthernetFrame) (m0 : ARPMessage)
    (hdst : f.header.dst = s.ethernet_address_ ∨ f.header.dst = ETHERNET_BROADCAST)
    (htype : f.header.ethertype = TYPE_ARP)
    (hp : f.payload = Payload.arp m0) :
    recv_frame s f = (none, process_arp s m0) := by
  simp [recv_frame, hdst, htype, hp, TYPE_ARP, TYPE_IPv4]

theorem recv_frame_arp_junk (s : NetworkInterface) (f : EthernetFrame)
    (hdst : f.header.dst = s.ethernet_address_ ∨ f.header.dst = ETHERNET_BROADCAST)
    (htype : f.header.ethertype = TYPE_ARP)
    (hp : ∀ m, f.payload ≠ Payload.arp m) :
    recv_frame s f = (none, s) := by
  have hne : ¬ f.header.ethertype = TYPE_IPv4 := by
    rw [htype]; simp [TYPE_ARP, TYPE_IPv4]
  simp only [recv_frame, if_pos hdst, if_neg hne, if_pos htype]

/-! ### Clock / expiry lemmas -/

theorem tick_curr_time (s : NetworkInterface) (d : Nat) :
    (tick s d).curr_time_ = s.curr_time_ + d := rfl

theorem ticks_nil (s : NetworkInterface) : ticks s [] = s := rfl

theorem ticks_cons (s : NetworkInterface) (d : Nat) (ds : List Nat) :
    ticks s (d :: ds) = ticks (tick s d) ds := rfl

theorem ticks_curr_time (ds : List Nat) : ∀ s : NetworkInterface,
    (ticks s ds).curr_time_ = s.curr_time_ + ds.sum := by
  induction ds with
  | nil => intro s; simp [ticks_nil]
  | cons d ds ih =>
      intro s
      rw [ticks_cons, ih, tick_curr_time]
      simp
      omega

theorem ticks_ethernet_address (ds : List Nat) : ∀ s : NetworkInterface,
    (ticks s ds).ethernet_address_ = s.ethernet_address_ := by
  induction ds with
  | nil => intro s; rfl
  | cons d ds ih => intro s; rw [ticks_cons, ih]; rfl

theorem ticks_ip_address (ds : List Nat) : ∀ s : NetworkInterface,
    (ticks s ds).ip_address_ = s.ip_address_ := by
  induction ds with
  | nil => intro s; rfl
  | cons d ds ih => intro s; rw [ticks_cons, ih]; rfl

theorem ticks_frame_queue (ds : List Nat) : ∀ s : NetworkInterface,
    (ticks s ds).frame_queue_ = s.frame_queue_ := by
  induction ds with
  | nil => intro s; rfl
  | cons d ds ih => intro s; rw [ticks_cons, ih]; rfl

theorem lookupA_erase_keep {β : Type} (m : List (Nat × (Nat × β))) (X now lim t : Nat)
    (b : β) (h : lookupA m X = some (t, b)) (hle : now - t ≤ lim) :
    lookupA (erase_expired_item m now lim) X = some (t, b) := by
  apply lookupA_filter_keep m X (t, b) _ h
  simp [hle]

theorem lookupA_erase_none {β : Type} (m : List (Nat × (Nat × β))) (X now lim : Nat)
    (h : lookupA m X = none) :
    lookupA (erase_expired_item m now lim) X = none :=
  lookupA_filter_none m X _ h

theorem lookupA_erase_gone {β : Type} (m : List (Nat × (Nat × β))) (X now lim t : Nat)
    (b : β) (hnd : (m.map Prod.fst).Nodup)
    (h : lookupA m X = some (t, b)) (hgt : lim < now - t) :
    lookupA (erase_expired_item m now lim) X = none := by
  apply lookupA_filter_gone m X (t, b) _ hnd h
  simp
  omega

theorem ticks_arp_keep (ds : List Nat) : ∀ (s : NetworkInterface) (X t mac : Nat),
    lookupA s.arp_table_ X = some (t, mac) →
    s.curr_time_ + ds.sum ≤ t + 30000 →
    lookupA (ticks s ds).arp_table_ X = some (t, mac) := by
  induction ds with
  | nil => intro s X t mac h _; exact h
  | cons d ds ih =>
      intro s X t mac h hle
      rw [ticks_cons]
      simp only [List.sum_cons] at hle
      apply ih (tick s d) X t mac
      · show lookupA (erase_expired_item s.arp_table_ (s.curr_time_ + d) 30000) X = _
        apply lookupA_erase_keep _ _ _ _ _ _ h
        omega
      · rw [tick_curr_time]
        omega

theorem ticks_queue_keep (ds : List Nat) : ∀ (s : NetworkInterface) (X t : Nat)
    (q : List Nat),
    lookupA s.queue_table_ X = some (t, q) →
    s.curr_time_ + ds.sum ≤ t + 5000 →
    lookupA (ticks s ds).queue_table_ X = some (t, q) := by
  induction ds with
  | nil => intro s X t q h _; exact h
  | cons d ds ih =>
      intro s X t q h hle
      rw [ticks_cons]
      simp only [List.sum_cons] at hle
      apply ih (tick s d) X t q
      · show lookupA (erase_expired_item s.queue_table_ (s.curr_time_ + d) 5000) X = _
        apply lookupA_erase_keep _ _ _ _ _ _ h
        omega
      · rw [tick_curr_time]
        omega

theorem ticks_arp_none (ds : List Nat) : ∀ (s : NetworkInterface) (X : Nat),
    lookupA s.arp_table_ X = none →
    lookupA (ticks s ds).arp_table_ X = none := by
  induction ds with
  | nil => intro s X h; exact h
  | cons d ds ih =>
      intro s X h
      rw [ticks_cons]
      exact ih (tick s d) X (lookupA_erase_none _ _ _ _ h)

theorem ticks_queue_none (ds : List Nat) : ∀ (s : NetworkInterface) (X : Nat),
    lookupA s.queue_table_ X = none →
    lookupA (ticks s ds).queue_table_ X = none := by
  induction ds with
  | nil => intro s X h; exact h
  | cons d ds ih =>
      intro s X h
      rw [ticks_cons]
      exact ih (tick s d) X (lookupA_erase_none _ _ _ _ h)

theorem ticks_arp_gone (ds : List Nat) : ∀ (s : NetworkInterface) (X t mac : Nat),
    (s.arp_table_.map Prod.fst).Nodup →
    (lookupA s.arp_table_ X = some (t, mac) ∨ lookupA s.arp_table_ X = none) →
    ds ≠ [] →
    t + 30000 < s.curr_time_ + ds.sum →
    lookupA (ticks s ds).arp_table_ X = none := by
  induction ds with
  | nil => intro s X t mac _ _ hne _; exact absurd rfl hne
  | cons d ds ih =>
      intro s X t mac hnd hor _ hgt
      rw [ticks_cons]
      simp only [List.sum_cons] at hgt
      rcases Decidable.em (ds = []) with hds | hds
      · subst hds
        rw [ticks_nil]
        simp only [List.sum_nil, Nat.add_zero] at hgt
        rcases hor with h | h
        · exact lookupA_erase_gone _ _ _ _ _ _ hnd h (by omega)
        · exact lookupA_erase_none _ _ _ _ h
      · apply ih (tick s d) X t mac
        · exact nodup_keys_filter _ _ hnd
        · rcases hor with h | h
          · rcases Decidable.em (s.curr_time_ + d - t ≤ 30000) with hc | hc
            · exact Or.inl (lookupA_erase_keep _ _ _ _ _ _ h hc)
            · exact Or.inr (lookupA_erase_gone _ _ _ _ _ _ hnd h (by omega))
          · exact Or.inr (lookupA_erase_none _ _ _ _ h)
        · exact hds
        · rw [tick_curr_time]
          omega

theorem ticks_queue_gone (ds : List Nat) : ∀ (s : NetworkInterface) (X t : Nat)
    (q : List Nat),
    (s.queue_table_.map Prod.fst).Nodup →
    (lookupA s.queue_table_ X = some (t, q) ∨ lookupA s.queue_table_ X = none) →
    ds ≠ [] →
    t + 5000 < s.curr_time_ + ds.sum →
    lookupA (ticks s ds).queue_table_ X = none := by
  induction ds with
  | nil => intro s X t q _ _ hne _; exact absurd rfl hne
  | cons d ds ih =>
      intro s X t q hnd hor _ hgt
      rw [ticks_cons]
      simp only [List.sum_cons] at hgt
      rcases Decidable.em (ds = []) with hds | hds
      · subst hds
        rw [ticks_nil]
        simp only [List.sum_nil, Nat.add_zero] at hgt
        rcases hor with h | h
        · exact lookupA_erase_gone _ _ _ _ _ _ hnd h (by omega)
        · exact lookupA_erase_none _ _ _ _ h
      · apply ih (tick s d) X t q
        · exact nodup_keys_filter _ _ hnd
        · rcases hor with h | h
          · rcases Decidable.em (s.curr_time_ + d - t ≤ 5000) with hc | hc
            · exact Or.inl (lookupA_erase_keep _ _ _ _ _ _ h hc)
            · exact Or.inr (lookupA_erase_gone _ _ _ _ _ _ hnd h (by omega))
          · exact Or.inr (lookupA_erase_none _ _ _ _ h)
        · exact hds
        · rw [tick_curr_time]
          omega

theorem drain_to_arp_table (s : NetworkInterface) (key mac : Nat) :
    (drain_to s key mac).arp_table_ = s.arp_table_ := rfl

theorem drain_to_curr_time (s : NetworkInterface) (key mac : Nat) :
    (drain_to s key mac).curr_time_ = s.curr_time_ := rfl

theorem maybe_send_queue_table (s : NetworkInterface) :
    (maybe_send s).2.queue_table_ = s.queue_table_ := by
  cases hf : s.frame_queue_ <;> simp [maybe_send, hf]

/-! ### Claims -/

/-- Claim C3: when the Resolution Cache holds an entry for the next-hop IP,
`send_datagram` changes nothing except appending exactly one frame to the
outbound queue: an IPv4 frame whose destination is the cached hardware
address, whose source is the local hardware address and whose payload is the
serialized datagram.  In particular no ARP frame is emitted and neither
table nor the clock is modified. -/
theorem C3_cache_hit_short_circuits (s : NetworkInterface) (d X t mac : Nat)
    (h : lookupA s.arp_table_ X = some (t, mac)) :
    send_datagram s d X =
      { s with frame_queue_ := s.frame_queue_ ++
          [⟨⟨mac, s.ethernet_address_, TYPE_IPv4⟩, Payload.ipv4 d⟩] } :=
  send_hit s d X t mac h

theorem C3_witness :
    send_datagram ⟨1, 10, [(20, (3, 5))], [], [], 4⟩ 7 20 =
      ⟨1, 10, [(20, (3, 5))], [], [⟨⟨5, 1, TYPE_IPv4⟩, Payload.ipv4 7⟩], 4⟩ :=
  C3_cache_hit_short_circuits ⟨1, 10, [(20, (3, 5))], [], [], 4⟩ 7 20 3 5 rfl

/-- Claim C7: any valid ARP message carried in a frame addressed to the local
or broadcast hardware address makes `recv_frame` insert or overwrite the
cache entry for the sender's IP with the sender's hardware address stamped
with the current clock, regardless of opcode and of any outstanding request. -/
theorem C7_unsolicited_learning (s : NetworkInterface) (f : EthernetFrame)
    (m : ARPMessage)
    (hdst : f.header.dst = s.ethernet_address_ ∨ f.header.dst = ETHERNET_BROADCAST)
    (htype : f.header.ethertype = TYPE_ARP)
    (hp : f.payload = Payload.arp m) :
    (recv_frame s f).2.arp_table_ =
      insertA s.arp_table_ m.sender_ip_address
        (s.curr_time_, m.sender_ethernet_address) := by
  rw [recv_frame_arp s f m hdst htype hp]
  by_cases hc : m.opcode = OPCODE_REQUEST ∧ m.target_ip_address = s.ip_address_
  · rw [process_arp_self s m hc.1 hc.2, drain_to_arp_table]
  · rw [process_arp_other s m hc, drain_to_arp_table]

theorem C7_witness :
    (recv_frame (mkInterface 1 10)
        ⟨⟨1, 5, TYPE_ARP⟩, Payload.arp ⟨OPCODE_REPLY, 5, 20, 1, 10⟩⟩).2.arp_table_ =
      insertA (mkInterface 1 10).arp_table_ 20 (0, 5) :=
  C7_unsolicited_learning (mkInterface 1 10)
    ⟨⟨1, 5, TYPE_ARP⟩, Payload.arp ⟨OPCODE_REPLY, 5, 20, 1, 10⟩⟩
    ⟨OPCODE_REPLY, 5, 20, 1, 10⟩ (Or.inl rfl) rfl rfl

/-- Claim C9: a frame whose destination is neither the local nor the
broadcast hardware address, or a frame addressed to us whose payload fails to
parse for its declared type (IPv4 or ARP), is discarded: `recv_frame` returns
no datagram and the entire state — both tables, the outbound queue and the
clock — is unchanged. -/
theorem C9_malformed_or_misaddressed_discard (s : NetworkInterface)
    (f : EthernetFrame) :
    (¬(f.header.dst = s.ethernet_address_ ∨ f.header.dst = ETHERNET_BROADCAST) →
      recv_frame s f = (none, s)) ∧
    ((f.header.dst = s.ethernet_address_ ∨ f.header.dst = ETHERNET_BROADCAST) →
      f.header.ethertype = TYPE_IPv4 → (∀ d, f.payload ≠ Payload.ipv4 d) →
      recv_frame s f = (none, s)) ∧
    ((f.header.dst = s.ethernet_address_ ∨ f.header.dst = ETHERNET_BROADCAST) →
      f.header.ethertype = TYPE_ARP → (∀ m, f.payload ≠ Payload.arp m) →
      recv_frame s f = (none, s)) :=
  ⟨recv_frame_not_ours s f, recv_frame_ipv4_junk s f, recv_frame_arp_junk s f⟩

theorem C9_witness :
    recv_frame (mkInterface 1 10) ⟨⟨2, 5, TYPE_IPv4⟩, Payload.ipv4 7⟩ =
      (none, mkInterface 1 10) :=
  (C9_malformed_or_misaddressed_discard (mkInterface 1 10)
    ⟨⟨2, 5, TYPE_IPv4⟩, Payload.ipv4 7⟩).1 (by decide)

/-- Claim C10: an IPv4-typed frame addressed to the local or broadcast
hardware address never mutates the state — `recv_frame` returns the state
unchanged — and the returned value is the parsed datagram on decode success
and nothing on decode failure. -/
theorem C10_ipv4_frames_are_pure (s : NetworkInterface) (f : EthernetFrame)
    (hdst : f.header.dst = s.ethernet_address_ ∨ f.header.dst = ETHERNET_BROADCAST)
    (htype : f.header.ethertype = TYPE_IPv4) :
    (recv_frame s f).2 = s ∧
    (∀ d, f.payload = Payload.ipv4 d → (recv_frame s f).1 = some d) ∧
    ((∀ d, f.payload ≠ Payload.ipv4 d) → (recv_frame s f).1 = none) := by
  refine ⟨?_, ?_, ?_⟩
  · cases hpay : f.payload with
    | ipv4 d => rw [recv_frame_ipv4 s f d hdst htype hpay]
    | arp m =>
        rw [recv_frame_ipv4_junk s f hdst htype (by simp [hpay])]
    | junk n =>
        rw [recv_frame_ipv4_junk s f hdst htype (by simp [hpay])]
  · intro d hd
    rw [recv_frame_ipv4 s f d hdst htype hd]
  · intro hp
    rw [recv_frame_ipv4_junk s f hdst htype hp]

theorem C10_witness :
    (recv_frame (mkInterface 1 10) ⟨⟨1, 5, TYPE_IPv4⟩, Payload.ipv4 7⟩).2 =
      mkInterface 1 10 ∧
    (recv_frame (mkInterface 1 10) ⟨⟨1, 5, TYPE_IPv4⟩, Payload.ipv4 7⟩).1 = some 7 := by
  have h := C10_ipv4_frames_are_pure (mkInterface 1 10)
    ⟨⟨1, 5, TYPE_IPv4⟩, Payload.ipv4 7⟩ (Or.inl rfl) rfl
  exact ⟨h.1, h.2.1 7 rfl⟩

/-- Frames of ARP ethertype (used to count ARP replies among emitted frames). -/
def is_arp_typed (fr : EthernetFrame) : Bool :=
  decide (fr.header.ethertype = TYPE_ARP)

theorem filter_arp_of_ipv4_map (mac src : Nat) (q : List Nat) :
    (q.map (fun d =>
      (⟨⟨mac, src, TYPE_IPv4⟩, Payload.ipv4 d⟩ : EthernetFrame))).filter
        is_arp_typed = [] := by
  induction q with
  | nil => rfl
  | cons d q ih =>
      simp only [List.map_cons, List.filter_cons]
      have hne : is_arp_typed ⟨⟨mac, src, TYPE_IPv4⟩, Payload.ipv4 d⟩ = false := by
        simp [is_arp_typed, TYPE_ARP, TYPE_IPv4]
      rw [hne]
      simp [ih]

/-- The frames appended by `drain_to` beyond a given prefix: starting from a
state whose outbound queue is `base ++ extra`, draining appends only IPv4
frames, so the ARP-typed frames appended past `base` are exactly those of
`extra`. -/
theorem drain_to_appended_arp (s : NetworkInterface) (key mac : Nat)
    (base extra : List EthernetFrame) (hq : s.frame_queue_ = base ++ extra) :
    ((drain_to s key mac).frame_queue_.drop base.length).filter is_arp_typed =
      extra.filter is_arp_typed := by
  cases hqt : lookupA s.queue_table_ key with
  | none =>
      rw [drain_to_none s key mac hqt]
      simp [hq, List.drop_left]
  | some v =>
      obtain ⟨t, q⟩ := v
      rw [drain_to_some s key mac t q hqt]
      simp only [hq, List.append_assoc, List.drop_left, List.filter_append,
        filter_arp_of_ipv4_map, List.append_nil]

/-- Claim C8: an inbound ARP REQUEST addressed to us whose target IP is the
local IP makes `recv_frame` enqueue exactly one ARP-typed frame — the REPLY,
addressed to the requester's hardware address, with the local identity in the
sender fields; a REQUEST for any other target IP enqueues no ARP-typed frame
(the sender is still learned, by C7). -/
theorem C8_self_addressed_request_reply (s : NetworkInterface)
    (f : EthernetFrame) (m : ARPMessage)
    (hdst : f.header.dst = s.ethernet_address_ ∨ f.header.dst = ETHERNET_BROADCAST)
    (htype : f.header.ethertype = TYPE_ARP)
    (hp : f.payload = Payload.arp m)
    (hop : m.opcode = OPCODE_REQUEST) :
    (m.target_ip_address = s.ip_address_ →
      ((recv_frame s f).2.frame_queue_.drop s.frame_queue_.length).filter
          is_arp_typed =
        [⟨⟨m.sender_ethernet_address, s.ethernet_address_, TYPE_ARP⟩,
          Payload.arp ⟨OPCODE_REPLY, s.ethernet_address_, s.ip_address_,
            m.sender_ethernet_address, m.sender_ip_address⟩⟩]) ∧
    (m.target_ip_address ≠ s.ip_address_ →
      ((recv_frame s f).2.frame_queue_.drop s.frame_queue_.length).filter
          is_arp_typed = []) := by
  rw [recv_frame_arp s f m hdst htype hp]
  constructor
  · intro ht
    rw [process_arp_self s m hop ht]
    rw [drain_to_appended_arp _ s.ip_address_ s.ethernet_address_
      s.frame_queue_
      [⟨⟨m.sender_ethernet_address, s.ethernet_address_, TYPE_ARP⟩,
        Payload.arp ⟨OPCODE_REPLY, s.ethernet_address_, s.ip_address_,
          m.sender_ethernet_address, m.sender_ip_address⟩⟩] rfl]
    simp [List.filter_cons, is_arp_typed]
  · intro ht
    have hc : ¬(m.opcode = OPCODE_REQUEST ∧ m.target_ip_address = s.ip_address_) :=
      fun hh => ht hh.2
    rw [process_arp_other s m hc]
    rw [drain_to_appended_arp _ m.sender_ip_address m.sender_ethernet_address
      s.frame_queue_ [] (by simp)]
    rfl

theorem C8_witness :
    ((recv_frame (mkInterface 1 10)
        ⟨⟨ETHERNET_BROADCAST, 5, TYPE_ARP⟩,
          Payload.arp ⟨OPCODE_REQUEST, 5, 20, 0, 10⟩⟩).2.frame_queue_.drop
        (mkInterface 1 10).frame_queue_.length).filter is_arp_typed =
      [⟨⟨5, 1, TYPE_ARP⟩, Payload.arp ⟨OPCODE_REPLY, 1, 10, 5, 20⟩⟩] :=
  (C8_self_addressed_request_reply (mkInterface 1 10)
    ⟨⟨ETHERNET_BROADCAST, 5, TYPE_ARP⟩,
      Payload.arp ⟨OPCODE_REQUEST, 5, 20, 0, 10⟩⟩
    ⟨OPCODE_REQUEST, 5, 20, 0, 10⟩ (Or.inr rfl) rfl rfl rfl).1 rfl

theorem drain_to_frames_of_some (s : NetworkInterface) (key mac t : Nat)
    (q : List Nat) (h : lookupA s.queue_table_ key = some (t, q)) :
    (drain_to s key mac).frame_queue_ = s.frame_queue_ ++ q.map (fun d =>
      ⟨⟨mac, s.ethernet_address_, TYPE_IPv4⟩, Payload.ipv4 d⟩) := by
  rw [drain_to_some s key mac t q h]

theorem drain_to_frames_of_none (s : NetworkInterface) (key mac : Nat)
    (h : lookupA s.queue_table_ key = none) :
    (drain_to s key mac).frame_queue_ = s.frame_queue_ := by
  rw [drain_to_none s key mac h]

/-- Claim C4: with no cache entry for `X`, two `send_datagram` calls for `X`
before any reply emit exactly one ARP request frame in total (the second call
only appends its datagram to the pending queue), and on receipt of an ARP
REPLY from `X` both datagrams are flushed as IPv4 frames to the replier's
hardware address, in submission order. -/
theorem C4_single_outstanding_request (s : NetworkInterface) (d1 d2 X : Nat)
    (m : ARPMessage) (f : EthernetFrame)
    (h1 : lookupA s.arp_table_ X = none)
    (h2 : lookupA s.queue_table_ X = none)
    (hdst : f.header.dst = s.ethernet_address_ ∨ f.header.dst = ETHERNET_BROADCAST)
    (htype : f.header.ethertype = TYPE_ARP)
    (hp : f.payload = Payload.arp m)
    (hop : m.opcode = OPCODE_REPLY)
    (hsender : m.sender_ip_address = X) :
    (send_datagram (send_datagram s d1 X) d2 X).frame_queue_ =
      s.frame_queue_ ++
        [⟨⟨ETHERNET_BROADCAST, s.ethernet_address_, TYPE_ARP⟩,
          Payload.arp ⟨OPCODE_REQUEST, s.ethernet_address_, s.ip_address_, 0, X⟩⟩] ∧
    lookupA (send_datagram (send_datagram s d1 X) d2 X).queue_table_ X =
      some (s.curr_time_, [d1, d2]) ∧
    (recv_frame (send_datagram (send_datagram s d1 X) d2 X) f).2.frame_queue_ =
      (send_datagram (send_datagram s d1 X) d2 X).frame_queue_ ++
        [⟨⟨m.sender_ethernet_address, s.ethernet_address_, TYPE_IPv4⟩,
            Payload.ipv4 d1⟩,
         ⟨⟨m.sender_ethernet_address, s.ethernet_address_, TYPE_IPv4⟩,
            Payload.ipv4 d2⟩] := by
  have e1 := send_miss s d1 X h1 h2
  have harp1 : lookupA (send_datagram s d1 X).arp_table_ X = none := by
    rw [e1]; exact h1
  have hq1 : lookupA (send_datagram s d1 X).queue_table_ X =
      some (s.curr_time_, [d1]) := by
    rw [e1]; exact lookupA_insertA_self _ _ _
  have e2 := send_pending (send_datagram s d1 X) d2 X harp1
    (by simp [containsA, hq1])
  have hq2 : lookupA (send_datagram (send_datagram s d1 X) d2 X).queue_table_ X =
      some (s.curr_time_, [d1, d2]) := by
    rw [e2]
    show lookupA (updateA (send_datagram s d1 X).queue_table_ X _) X = _
    rw [lookupA_updateA_self, hq1]
    rfl
  have hfq2 : (send_datagram (send_datagram s d1 X) d2 X).frame_queue_ =
      s.frame_queue_ ++
        [⟨⟨ETHERNET_BROADCAST, s.ethernet_address_, TYPE_ARP⟩,
          Payload.arp ⟨OPCODE_REQUEST, s.ethernet_address_, s.ip_address_, 0, X⟩⟩] := by
    rw [e2, e1]
  refine ⟨hfq2, hq2, ?_⟩
  have hdst2 : f.header.dst =
      (send_datagram (send_datagram s d1 X) d2 X).ethernet_address_ ∨
      f.header.dst = ETHERNET_BROADCAST := by
    rw [e2, e1]; exact hdst
  have hc : ¬(m.opcode = OPCODE_REQUEST ∧ m.target_ip_address =
      (send_datagram (send_datagram s d1 X) d2 X).ip_address_) := by
    intro hh
    rw [hop] at hh
    exact absurd hh.1 (by decide)
  rw [recv_frame_arp _ f m hdst2 htype hp, process_arp_other _ m hc]
  have heth : (send_datagram (send_datagram s d1 X) d2 X).ethernet_address_ =
      s.ethernet_address_ := by
    rw [e2, e1]
  rw [heth, hsender]
  apply drain_to_frames_of_some _ X m.sender_ethernet_address s.curr_time_ [d1, d2]
  exact hq2

theorem C4_witness :
    (send_datagram (send_datagram (mkInterface 1 10) 7 20) 8 20).frame_queue_ =
      (mkInterface 1 10).frame_queue_ ++
        [⟨⟨ETHERNET_BROADCAST, 1, TYPE_ARP⟩,
          Payload.arp ⟨OPCODE_REQUEST, 1, 10, 0, 20⟩⟩] ∧
    lookupA (send_datagram (send_datagram (mkInterface 1 10) 7 20) 8 20).queue_table_
      20 = some (0, [7, 8]) ∧
    (recv_frame (send_datagram (send_datagram (mkInterface 1 10) 7 20) 8 20)
        ⟨⟨1, 5, TYPE_ARP⟩, Payload.arp ⟨OPCODE_REPLY, 5, 20, 1, 10⟩⟩).2.frame_queue_ =
      (send_datagram (send_datagram (mkInterface 1 10) 7 20) 8 20).frame_queue_ ++
        [⟨⟨5, 1, TYPE_IPv4⟩, Payload.ipv4 7⟩, ⟨⟨5, 1, TYPE_IPv4⟩, Payload.ipv4 8⟩] :=
  C4_single_outstanding_request (mkInterface 1 10) 7 8 20
    ⟨OPCODE_REPLY, 5, 20, 1, 10⟩
    ⟨⟨1, 5, TYPE_ARP⟩, Payload.arp ⟨OPCODE_REPLY, 5, 20, 1, 10⟩⟩
    rfl rfl (Or.inl rfl) rfl rfl rfl rfl

/-- Claim C5: a cache entry for IP `X` learned at time `T` is still a cache
hit after time-advances that bring the clock to exactly `T + 29999` — `send`
then emits the single IPv4 frame to the cached hardware address — and is
absent after time-advances that bring the clock past `T + 30000`, so a
subsequent `send` to `X` broadcasts a fresh ARP request and re-opens a
pending entry. -/
theorem C5_cache_ttl (s : NetworkInterface) (X T mac d : Nat)
    (hnd : (s.arp_table_.map Prod.fst).Nodup)
    (ha : lookupA s.arp_table_ X = some (T, mac))
    (hq : lookupA s.queue_table_ X = none) :
    (∀ ds : List Nat, s.curr_time_ + ds.sum = T + 29999 →
      lookupA (ticks s ds).arp_table_ X = some (T, mac) ∧
      send_datagram (ticks s ds) d X =
        { ticks s ds with
          frame_queue_ := (ticks s ds).frame_queue_ ++
            [⟨⟨mac, (ticks s ds).ethernet_address_, TYPE_IPv4⟩,
              Payload.ipv4 d⟩] }) ∧
    (∀ ds : List Nat, ds ≠ [] → T + 30000 < s.curr_time_ + ds.sum →
      lookupA (ticks s ds).arp_table_ X = none ∧
      send_datagram (ticks s ds) d X =
        { ticks s ds with
          queue_table_ := insertA (ticks s ds).queue_table_ X
            ((ticks s ds).curr_time_, [d]),
          frame_queue_ := (ticks s ds).frame_queue_ ++
            [⟨⟨ETHERNET_BROADCAST, (ticks s ds).ethernet_address_, TYPE_ARP⟩,
              Payload.arp ⟨OPCODE_REQUEST, (ticks s ds).ethernet_address_,
                (ticks s ds).ip_address_, 0, X⟩⟩] }) := by
  constructor
  · intro ds hsum
    have hkeep : lookupA (ticks s ds).arp_table_ X = some (T, mac) :=
      ticks_arp_keep ds s X T mac ha (by omega)
    exact ⟨hkeep, send_hit _ d X T mac hkeep⟩
  · intro ds hne hsum
    have hgone : lookupA (ticks s ds).arp_table_ X = none :=
      ticks_arp_gone ds s X T mac hnd (Or.inl ha) hne hsum
    have hqn : lookupA (ticks s ds).queue_table_ X = none :=
      ticks_queue_none ds s X hq
    exact ⟨hgone, send_miss _ d X hgone hqn⟩

theorem C5_witness :
    lookupA (ticks ⟨1, 10, [(20, (0, 5))], [], [], 0⟩ [29999]).arp_table_ 20 =
      some (0, 5) ∧
    lookupA (ticks ⟨1, 10, [(20, (0, 5))], [], [], 0⟩ [30001]).arp_table_ 20 =
      none := by
  have h := C5_cache_ttl ⟨1, 10, [(20, (0, 5))], [], [], 0⟩ 20 0 5 7
    (by decide) rfl rfl
  exact ⟨(h.1 [29999] rfl).1, (h.2 [30001] (by decide) (by decide)).1⟩

/-- Claim C6: a pending entry for IP `X` whose last request was sent at time
`T`, with no resolving ARP message arriving, is silently removed by
time-advances that bring the clock past `T + 5000`: the entry (with its
queued datagrams) is gone, the time-advances emit no frame at all, and even
an ARP REPLY from `X` arriving afterwards drains nothing — no frame carrying
the dropped datagrams is ever emitted.  No operation signals any error. -/
theorem C6_pending_ttl_drop (s : NetworkInterface) (X T : Nat) (q : List Nat)
    (hnd : (s.queue_table_.map Prod.fst).Nodup)
    (hq : lookupA s.queue_table_ X = some (T, q)) :
    ∀ ds : List Nat, ds ≠ [] → T + 5000 < s.curr_time_ + ds.sum →
      lookupA (ticks s ds).queue_table_ X = none ∧
      (ticks s ds).frame_queue_ = s.frame_queue_ ∧
      (∀ (src : Nat) (m : ARPMessage), m.opcode = OPCODE_REPLY →
        m.sender_ip_address = X →
        (recv_frame (ticks s ds)
            ⟨⟨(ticks s ds).ethernet_address_, src, TYPE_ARP⟩,
              Payload.arp m⟩).2.frame_queue_ = (ticks s ds).frame_queue_) := by
  intro ds hne hsum
  have hgone : lookupA (ticks s ds).queue_table_ X = none :=
    ticks_queue_gone ds s X T q hnd (Or.inl hq) hne hsum
  refine ⟨hgone, ticks_frame_queue ds s, ?_⟩
  intro src m hop hsender
  rw [recv_frame_arp (ticks s ds) _ m (Or.inl rfl) rfl rfl]
  have hc : ¬(m.opcode = OPCODE_REQUEST ∧
      m.target_ip_address = (ticks s ds).ip_address_) := by
    intro hh
    rw [hop] at hh
    exact absurd hh.1 (by decide)
  rw [process_arp_other _ m hc]
  apply drain_to_frames_of_none
  show lookupA (ticks s ds).queue_table_ m.sender_ip_address = none
  rw [hsender]
  exact hgone

theorem C6_witness :
    lookupA (ticks ⟨1, 10, [], [(20, (0, [7]))], [], 0⟩ [5001]).queue_table_ 20 =
      none ∧
    (ticks ⟨1, 10, [], [(20, (0, [7]))], [], 0⟩ [5001]).frame_queue_ = [] := by
  have h := C6_pending_ttl_drop ⟨1, 10, [], [(20, (0, [7]))], [], 0⟩ 20 0 [7]
    (by decide) rfl [5001] (by decide) (by decide)
  exact ⟨h.1, h.2.1⟩

/-- Claim C1 (refuted — the source contradicts the spec's intent): start from
a fresh interface with hardware address 1 and IP 10; `send_datagram` queues
datagram 7 for unresolved next hop 20, emitting one ARP request.  Then a
valid ARP REQUEST arrives from IP 20 / hardware address 5 targeting the local
IP 10 — an ARP message whose sender IP has a pending entry.  Evaluating
`recv_frame` shows: the entry for 20 still holds the datagram (nothing was
flushed and the entry was not removed), the outbound queue gained only the
ARP reply and no IPv4 frame, and a phantom empty entry for the LOCAL IP 10
appeared.  Cause: `recv_frame` mutates the parsed message in place to build
the reply before the drain loop, so the drain reads the local identity
instead of the sender's, and the drain loop never erases entries. -/
theorem C1_resolution_flush_fails_on_self_request :
    lookupA (recv_frame (send_datagram (mkInterface 1 10) 7 20)
        ⟨⟨ETHERNET_BROADCAST, 5, TYPE_ARP⟩,
          Payload.arp ⟨OPCODE_REQUEST, 5, 20, 0, 10⟩⟩).2.queue_table_ 20 =
      some (0, [7]) ∧
    (recv_frame (send_datagram (mkInterface 1 10) 7 20)
        ⟨⟨ETHERNET_BROADCAST, 5, TYPE_ARP⟩,
          Payload.arp ⟨OPCODE_REQUEST, 5, 20, 0, 10⟩⟩).2.frame_queue_ =
      [⟨⟨ETHERNET_BROADCAST, 1, TYPE_ARP⟩,
          Payload.arp ⟨OPCODE_REQUEST, 1, 10, 0, 20⟩⟩,
       ⟨⟨5, 1, TYPE_ARP⟩, Payload.arp ⟨OPCODE_REPLY, 1, 10, 5, 20⟩⟩] ∧
    lookupA (recv_frame (send_datagram (mkInterface 1 10) 7 20)
        ⟨⟨ETHERNET_BROADCAST, 5, TYPE_ARP⟩,
          Payload.arp ⟨OPCODE_REQUEST, 5, 20, 0, 10⟩⟩).2.queue_table_ 10 =
      some (0, []) := by
  decide

/-- The steady-state shape claim C2 asserts of the Pending-Resolution Table:
every stored entry has a non-empty datagram queue. -/
def no_empty_queues (qt : List (Nat × (Nat × List Nat))) : Prop :=
  ∀ p ∈ qt, p.2.2 ≠ []

/-- Claim C2 counterexample: from the initial state (a reachable state),
one complete `recv_frame` of a valid ARP REPLY from IP 20 leaves the
Pending-Resolution Table equal to `[(20, (0, []))]` — an entry whose datagram
queue is empty, contradicting the claimed invariant. -/
theorem C2_empty_entry_counterexample :
    (recv_frame (mkInterface 1 10)
        ⟨⟨1, 5, TYPE_ARP⟩,
          Payload.arp ⟨OPCODE_REPLY, 5, 20, 1, 10⟩⟩).2.queue_table_ =
      [(20, (0, []))] := by
  decide

theorem drain_to_lookup_key (s : NetworkInterface) (key mac : Nat) :
    ∃ t, lookupA (drain_to s key mac).queue_table_ key = some (t, []) := by
  cases hqt : lookupA s.queue_table_ key with
  | none =>
      rw [drain_to_none s key mac hqt]
      refine ⟨0, ?_⟩
      show lookupA (updateA (insertA s.queue_table_ key (0, [])) key _) key = _
      rw [lookupA_updateA_self, lookupA_insertA_self]
      rfl
  | some v =>
      obtain ⟨t, q⟩ := v
      rw [drain_to_some s key mac t q hqt]
      refine ⟨t, ?_⟩
      show lookupA (updateA s.queue_table_ key _) key = _
      rw [lookupA_updateA_self, hqt]
      rfl

/-- Claim C2 amended: the no-empty-queue invariant is preserved by
`send_datagram`, `tick` and `maybe_send`, but NOT by `recv_frame`: every
complete receive of a valid accepted ARP message leaves (creating it if
necessary) an entry with an EMPTY datagram queue in the Pending-Resolution
Table, at the drain key — the local IP when the message was a request for
the local IP, the sender's IP otherwise.  The drained-to-empty (or
`operator[]`-created) entry is never removed by `recv_frame`. -/
theorem C2_no_empty_queue_invariant_amended :
    (∀ (s : NetworkInterface) (d X : Nat), no_empty_queues s.queue_table_ →
      no_empty_queues (send_datagram s d X).queue_table_) ∧
    (∀ (s : NetworkInterface) (delta : Nat), no_empty_queues s.queue_table_ →
      no_empty_queues (tick s delta).queue_table_) ∧
    (∀ s : NetworkInterface, no_empty_queues s.queue_table_ →
      no_empty_queues (maybe_send s).2.queue_table_) ∧
    (∀ (s : NetworkInterface) (f : EthernetFrame) (m : ARPMessage),
      (f.header.dst = s.ethernet_address_ ∨ f.header.dst = ETHERNET_BROADCAST) →
      f.header.ethertype = TYPE_ARP → f.payload = Payload.arp m →
      ∃ t, lookupA (recv_frame s f).2.queue_table_
        (if m.opcode = OPCODE_REQUEST ∧ m.target_ip_address = s.ip_address_
         then s.ip_address_ else m.sender_ip_address) = some (t, [])) := by
  refine ⟨?_, ?_, ?_, ?_⟩
  · intro s d X h
    cases ha : lookupA s.arp_table_ X with
    | some v =>
        obtain ⟨t, mac⟩ := v
        rw [send_hit s d X t mac ha]
        exact h
    | none =>
        cases hqq : lookupA s.queue_table_ X with
        | some v =>
            rw [send_pending s d X ha (by simp [containsA, hqq])]
            intro p hp
            obtain ⟨q1, hq1, hcase⟩ := mem_updateA _ _ _ p hp
            rcases hcase with hcase | hcase
            · rw [hcase]
              exact h q1 hq1
            · rw [hcase]
              simp
        | none =>
            rw [send_miss s d X ha hqq]
            intro p hp
            rcases mem_insertA _ _ _ p hp with hcase | hcase
            · exact h p hcase
            · rw [hcase]
              simp
  · intro s delta h p hp
    have hp2 : p ∈ erase_expired_item s.queue_table_ (s.curr_time_ + delta) 5000 :=
      hp
    exact h p (List.mem_filter.mp hp2).1
  · intro s h
    rw [maybe_send_queue_table]
    exact h
  · intro s f m hdst htype hp
    rw [recv_frame_arp s f m hdst htype hp]
    by_cases hc : m.opcode = OPCODE_REQUEST ∧ m.target_ip_address = s.ip_address_
    · rw [if_pos hc, process_arp_self s m hc.1 hc.2]
      exact drain_to_lookup_key _ s.ip_address_ s.ethernet_address_
    · rw [if_neg hc, process_arp_other s m hc]
      exact drain_to_lookup_key _ m.sender_ip_address m.sender_ethernet_address

theorem C2_amended_witness :
    ∃ t, lookupA (recv_frame (mkInterface 1 10)
        ⟨⟨1, 5, TYPE_ARP⟩,
          Payload.arp ⟨OPCODE_REPLY, 5, 20, 1, 10⟩⟩).2.queue_table_
      (if (⟨OPCODE_REPLY, 5, 20, 1, 10⟩ : ARPMessage).opcode = OPCODE_REQUEST ∧
          (⟨OPCODE_REPLY, 5, 20, 1, 10⟩ : ARPMessage).target_ip_address =
            (mkInterface 1 10).ip_address_
       then (mkInterface 1 10).ip_address_
       else (⟨OPCODE_REPLY, 5, 20, 1, 10⟩ : ARPMessage).sender_ip_address) =
      some (t, []) :=
  C2_no_empty_queue_invariant_amended.2.2.2 (mkInterface 1 10)
    ⟨⟨1, 5, TYPE_ARP⟩, Payload.arp ⟨OPCODE_REPLY, 5, 20, 1, 10⟩⟩
    ⟨OPCODE_REPLY, 5, 20, 1, 10⟩ (Or.inl rfl) rfl rfl
